import Mathlib

/-!
Verification of the voice-to-Minecraft command pipeline.

This file gives a shallow embedding, in Lean, of the pure logic of the
repository's Python sources:

* `src/minecraft_rcon.py` — RCON command synthesis: radius clamping, slab
  decomposition of a chunk-sized region, per-command cooldown, and the
  reconnect-and-retry behaviour of `execute_command`.
* `src/block_detector.py` — transcript normalization, whole-word vocabulary
  matching and radius extraction.
* `src/transcription.py` / `src/bot.py` — the session-teardown sequence for
  the transcription buffer.

Python integers are modelled as `Int` (or `Nat` where the source value is
always non-negative), Python strings as `String` or `List Char` (character
lists, so that the regex-like scanning in `block_detector.py` can be modelled
character by character), Python `None`-returning fallible calls as `Option`,
and the remote RCON connection as an explicit environment of scripted
responses together with a trace of the calls issued.

Unicode caveat: Python's `str.lower`, `\w`, `\s` and `\d` are Unicode-aware;
the embedding uses the ASCII versions (`Char.toLower`, alphanumeric plus
underscore, `Char.isWhitespace`, `Char.isDigit`), which agree with the source
on all ASCII inputs, in particular on every input appearing in the claims.
-/

set_option autoImplicit false

/-! ## Configuration (`src/config.py`)

The `Config` values are loaded from environment variables with hard-coded
defaults; the embedding fixes them at those defaults
(`DEFAULT_RADIUS = 3`, `MAX_RADIUS = 10`, `COOLDOWN_SECONDS = 5`). -/

def Config.DEFAULT_RADIUS : Nat := 3

def Config.MAX_RADIUS : Nat := 10

def Config.COOLDOWN_SECONDS : Nat := 5

/-! ## RCON constants (`src/minecraft_rcon.py`, module level) -/

/-- Minecraft Java Edition fill command limit (blocks per command). -/
def FILL_LIMIT_BLOCKS : Nat := 32768

/-- Chunk extends -8 to +8 around the player (17x17 horizontal). -/
def CHUNK_RADIUS : Nat := 8

/-! ## Radius clamping in `replace_blocks_around_player`
(`src/minecraft_rcon.py` lines 179-193) -/

/-- Fill volume `(2*radius+1)**2 * (radius+2)` used by the volume guard in
`replace_blocks_around_player`. -/
def fillVolume (r : Int) : Int := (2 * r + 1) ^ 2 * (r + 2)

/-- The `while (2*radius+1)**2*(radius+2) > FILL_LIMIT_BLOCKS and radius > 0:
radius -= 1` loop. The loop decrements `radius` while it is positive, so it
makes at most `radius.toNat` iterations; the fuel argument is set to that
bound by `synthesizedRadius`, which makes the fuelled recursion equal to the
Python loop. -/
def shrinkLoop : Nat → Int → Int
  | 0, r => r
  | fuel + 1, r =>
      if fillVolume r > (FILL_LIMIT_BLOCKS : Int) ∧ r > 0 then shrinkLoop fuel (r - 1) else r

/-- The radius substituted into the fill command by
`replace_blocks_around_player`: first `radius = min(radius, Config.MAX_RADIUS)`,
then the volume-guard loop. -/
def synthesizedRadius (radius : Int) : Int :=
  let r := min radius (Config.MAX_RADIUS : Int)
  shrinkLoop r.toNat r

/-- The fill command built by `replace_blocks_around_player` (lines 186-193),
with the clamped radius substituted into the f-string. -/
def replaceBlocksAroundPlayerCommand (player blockId targetBlock : String) (radius : Int) :
    String :=
  "execute as " ++ player ++ " at @s run fill ~-" ++ toString (synthesizedRadius radius)
    ++ " ~-1 ~-" ++ toString (synthesizedRadius radius)
    ++ " ~" ++ toString (synthesizedRadius radius)
    ++ " ~" ++ toString (synthesizedRadius radius)
    ++ " ~" ++ toString (synthesizedRadius radius)
    ++ " " ++ blockId ++ " replace " ++ targetBlock

/-! ## Broadcast escaping in `say` (`src/minecraft_rcon.py` lines 332-338) -/

/-- `message.replace('"', '\\"')`: each double quote becomes backslash-quote;
every other character (backslashes included) passes through unchanged. -/
def escapeQuotes : List Char → List Char
  | [] => []
  | c :: rest => if c = '"' then '\\' :: '"' :: escapeQuotes rest else c :: escapeQuotes rest

/-- The command string `f'say "{message}"'` sent by `say` after escaping. -/
def sayCommand (message : List Char) : List Char :=
  String.toList "say \"" ++ escapeQuotes message ++ ['"']

/-- Follows the claim's words (refinement reference, not code): escaping of
BOTH backslashes and double quotes before substitution. -/
def escapeQuotesAndBackslashes : List Char → List Char
  | [] => []
  | c :: rest =>
      if c = '"' then '\\' :: '"' :: escapeQuotesAndBackslashes rest
      else if c = '\\' then '\\' :: '\\' :: escapeQuotesAndBackslashes rest
      else c :: escapeQuotesAndBackslashes rest

/-- The command `say` would send under the claim's escaping rule. -/
def sayCommandClaimed (message : List Char) : List Char :=
  String.toList "say \"" ++ escapeQuotesAndBackslashes message ++ ['"']

/-! ## Slab decomposition in `replace_blocks_in_chunk_around_player`
(`src/minecraft_rcon.py` lines 253-282)

The Python body computes
`h_blocks = CHUNK_RADIUS * 2 + 1`,
`segment_height = FILL_LIMIT_BLOCKS // (h_blocks * h_blocks)`,
`height_span = world_max_y - world_min_y + 1`,
`num_segments = (height_span + segment_height - 1) // segment_height`,
then for `i in range(num_segments)` issues one fill command for the slab
`[y_start i, y_end i]`. Python's `//` is floor division, `Int.fdiv` here. -/

/-- `h_blocks = CHUNK_RADIUS * 2 + 1` (17). -/
def hBlocks : Nat := CHUNK_RADIUS * 2 + 1

/-- `segment_height = FILL_LIMIT_BLOCKS // (h_blocks * h_blocks)` (113). -/
def segmentHeight : Nat := FILL_LIMIT_BLOCKS / (hBlocks * hBlocks)

/-- `height_span = world_max_y - world_min_y + 1`. -/
def heightSpan (worldMinY worldMaxY : Int) : Int := worldMaxY - worldMinY + 1

/-- `num_segments = (height_span + segment_height - 1) // segment_height`. -/
def numSegments (worldMinY worldMaxY : Int) : Int :=
  Int.fdiv (heightSpan worldMinY worldMaxY + (segmentHeight : Int) - 1) (segmentHeight : Int)

/-- `y_start = world_min_y + i * segment_height` for slab `i`. -/
def slabStart (worldMinY : Int) (i : Nat) : Int := worldMinY + (i : Int) * (segmentHeight : Int)

/-- `y_end = min(world_min_y + (i + 1) * segment_height - 1, world_max_y)` for slab `i`. -/
def slabEnd (worldMinY worldMaxY : Int) (i : Nat) : Int :=
  min (worldMinY + ((i : Int) + 1) * (segmentHeight : Int) - 1) worldMaxY

/-- The ordered list of vertical slabs `(y_start, y_end)` for which
`replace_blocks_in_chunk_around_player` issues fill commands
(`for i in range(num_segments)`; `range` of a non-positive count is empty,
matching `toNat`). -/
def chunkSlabs (worldMinY worldMaxY : Int) : List (Int × Int) :=
  (List.range (numSegments worldMinY worldMaxY).toNat).map
    (fun i => (slabStart worldMinY i, slabEnd worldMinY worldMaxY i))

/-! ## The RCON client state machine (`src/minecraft_rcon.py` lines 27-139)

`MinecraftRCON` keeps a `connected` flag and a dict `last_command_time`
mapping cooldown keys to the timestamp of the last executed command.
Timestamps (`datetime.now()`) are modelled as an `Int` number of seconds
supplied by the caller; `(now - last).total_seconds() >= cooldown_seconds`
becomes integer comparison.  The remote server (the `mcrcon` connection) is
modelled as an environment of scripted outcomes: a list of results for
successive `connect()` calls and a list of results for successive
`connection.command()` calls (`none` meaning the call raises).  Each
invocation also returns the trace of remote calls it issued. -/

/-- One remote interaction performed by the client. -/
inductive RemoteCall where
  /-- A `self.connect()` attempt. -/
  | connect
  /-- A `self.connection.command(cmd)` attempt (whether it returns or raises). -/
  | command (cmd : String)
deriving DecidableEq, Repr

/-- Scripted outcomes of the remote server for one invocation: results of
successive `connect()` calls, and of successive `connection.command()` calls
(`some response` returns, `none` raises). -/
structure RemoteEnv where
  connects : List Bool
  commands : List (Option String)

/-- The mutable state of `MinecraftRCON`: the `connected` flag and the
`last_command_time` dict (modelled as a lookup function). -/
structure RconState where
  connected : Bool
  lastCommandTime : String → Option Int

/-- `key = f"user_{user_id}" if user_id else "global"`: Python truthiness, so
both `None` and `0` fall back to the global key. -/
def cooldownKey (userId : Option Int) : String :=
  match userId with
  | some u => if u = 0 then "global" else "user_" ++ toString u
  | none => "global"

/-- `_check_cooldown` (lines 86-95). -/
def checkCooldown (st : RconState) (now : Int) (userId : Option Int) : Bool :=
  match st.lastCommandTime (cooldownKey userId) with
  | none => true
  | some lastTime => now - lastTime ≥ (Config.COOLDOWN_SECONDS : Int)

/-- `_update_cooldown` (lines 97-100). -/
def updateCooldown (st : RconState) (now : Int) (userId : Option Int) : RconState :=
  { st with lastCommandTime :=
      fun k => if k = cooldownKey userId then some now else st.lastCommandTime k }

/-- Result of `execute_command`: the returned response (`None` modelled as
`none`), the client state afterwards, and the trace of remote calls issued. -/
structure ExecResult where
  response : Option String
  state : RconState
  calls : List RemoteCall

/-- The next scripted `connect()` outcome (an exhausted script means the
connection attempt fails). -/
def nextConnect (l : List Bool) : Bool :=
  match l with
  | [] => false
  | b :: _ => b

/-- The next scripted `connection.command()` outcome (an exhausted script
means the call raises, i.e. `none`). -/
def nextCommand (l : List (Option String)) : Option String :=
  match l with
  | [] => none
  | r :: _ => r

/-- The `if not self.connected: if not self.connect(): return None` prologue
of `execute_command` (lines 114-116): when disconnected, one `connect()`
attempt is made, consuming the next scripted connect outcome and setting the
`connected` flag to it.  Returns the updated state, the remaining
environment, and the trace of the prologue. -/
def ensureConnected (env : RemoteEnv) (st : RconState) :
    RconState × RemoteEnv × List RemoteCall :=
  if st.connected then (st, env, [])
  else
    ({ st with connected := nextConnect env.connects },
      { env with connects := env.connects.tail }, [RemoteCall.connect])

/-- `execute_command` (lines 102-139).  Control flow, in source order:
if not connected, `connect()` and fail when it fails; then the cooldown gate
(skipped when `bypass_cooldown`); then the command attempt; on an exception,
set `connected = False`, attempt one `connect()` and, when it succeeds, retry
the command exactly once. -/
def executeCommand (env : RemoteEnv) (st : RconState) (now : Int)
    (command : String) (userId : Option Int) (bypassCooldown : Bool) : ExecResult :=
  let st1 := (ensureConnected env st).1
  let env1 := (ensureConnected env st).2.1
  let calls1 := (ensureConnected env st).2.2
  if !st1.connected then ⟨none, st1, calls1⟩
  else if !bypassCooldown && !checkCooldown st1 now userId then ⟨none, st1, calls1⟩
  else
    match nextCommand env1.commands with
    | some resp =>
        ⟨some resp, updateCooldown st1 now userId, calls1 ++ [RemoteCall.command command]⟩
    | none =>
        let st2 : RconState := { st1 with connected := false }
        let calls2 := calls1 ++ [RemoteCall.command command, RemoteCall.connect]
        if nextConnect env1.connects then
          let st3 : RconState := { st2 with connected := true }
          match nextCommand env1.commands.tail with
          | some resp =>
              ⟨some resp, updateCooldown st3 now userId,
                calls2 ++ [RemoteCall.command command]⟩
          | none => ⟨none, st3, calls2 ++ [RemoteCall.command command]⟩
        else ⟨none, st2, calls2⟩

/-! ## Per-player slab loop and player fan-out
(`src/minecraft_rcon.py` lines 259-276 and 298-315)

For the batch claims the outcome of each slab command is abstracted as a
boolean: slab `i` for a player succeeds iff its `execute_command` call
returned non-`None` (the function treats only `None` — an exception /
connection failure — as failure; an empty-string response counts as
success).  `execute_command` itself catches every exception (lines 123-139),
so a slab outcome is always a value, never a thrown error; the loop below is
therefore total, mirroring the source. -/

/-- The `for i in range(num_segments)` loop of
`replace_blocks_in_chunk_around_player`: executes slabs from index `i` on
with `fuel` iterations left, returning the overall success flag and the list
of slab indices for which a command was actually issued.  On the first
failing slab the loop `return False`s, aborting the remaining slabs. -/
def chunkLoop (slabOk : Nat → Bool) : Nat → Nat → Bool × List Nat
  | _, 0 => (true, [])
  | i, fuel + 1 =>
      if slabOk i then
        let rest := chunkLoop slabOk (i + 1) fuel
        (rest.1, i :: rest.2)
      else (false, [i])

/-- `replace_blocks_in_chunk_around_player`, abstracted over the per-slab
command outcomes: returns `(success, issued slab indices)`. -/
def replaceChunkExec (slabOk : Nat → Bool) (worldMinY worldMaxY : Int) : Bool × List Nat :=
  chunkLoop slabOk 0 (numSegments worldMinY worldMaxY).toNat

/-- `replace_blocks_in_chunk_around_all_players` (lines 298-315): a dict
comprehension over the freshly fetched player list, one entry per player,
each entry computed by `replace_blocks_in_chunk_around_player` from that
player's own slab outcomes. -/
def replaceChunkAllPlayers (players : List String) (slabOk : String → Nat → Bool)
    (worldMinY worldMaxY : Int) : List (String × Bool) :=
  players.map (fun p => (p, (replaceChunkExec (slabOk p) worldMinY worldMaxY).1))

/-! ## Transcription session teardown
(`src/transcription.py` lines 110-118 and 294-299; `src/bot.py` lines 245-248)

Only the fields that the teardown sequence touches are modelled: the
`is_transcribing` flag and the byte accumulator `audio_buffer` (bytes as
`List Nat`).  `flush_buffer` hands the retained buffer to
`_transcribe_chunk`; the model records what (if anything) was submitted for
transcription. -/

/-- The accumulator-relevant part of `TranscriptionService`. -/
structure TranscriptionState where
  isTranscribing : Bool
  audioBuffer : List Nat
deriving DecidableEq, Repr

/-- `stop_session` (lines 110-118): early-returns when no session is active;
otherwise clears the flag, clears the buffer, drops the recording dir. -/
def stopSession (st : TranscriptionState) : TranscriptionState :=
  if !st.isTranscribing then st
  else { isTranscribing := false, audioBuffer := [] }

/-- `flush_buffer` (lines 294-299): `if self.audio_buffer and
self.is_transcribing:` transcribe the remaining buffer and clear it.
Returns the new state and the chunk submitted to `_transcribe_chunk`
(`none` when nothing was submitted). -/
def flushBuffer (st : TranscriptionState) : TranscriptionState × Option (List Nat) :=
  if !st.audioBuffer.isEmpty && st.isTranscribing then
    ({ st with audioBuffer := [] }, some st.audioBuffer)
  else (st, none)

/-- The teardown sequence in `bot.py`'s audio-loop `finally` block
(lines 247-248): `await stop_session()` then `await flush_buffer()`,
in that order. -/
def teardownSequence (st : TranscriptionState) : TranscriptionState × Option (List Nat) :=
  flushBuffer (stopSession st)

/-- The teardown sequence the claim (and §5 of the spec) describes: flush and
transcribe the retained buffer first, then stop the session (refinement
reference, not code). -/
def teardownSequenceClaimed (st : TranscriptionState) : TranscriptionState × Option (List Nat) :=
  let flushed := flushBuffer st
  (stopSession flushed.1, flushed.2)

/-! ## Block detection (`src/block_detector.py`)

Transcripts are modelled as `List Char`.  The regex constructs actually used
by the source are modelled directly: the character classes `\w` (word
character), `\s` (whitespace) and `\d` (digit), the word-boundary assertion
`\b`, and `re.search`'s leftmost-match scan.  All four radius patterns
alternate between pairwise-disjoint character classes and literals
(`\s` / `\d` / letters), so maximal-munch scanning at each start position is
exactly the regex's backtracking semantics. -/

/-- The regex class `\w` (ASCII): letters, digits, underscore. -/
def isWordChar (c : Char) : Bool := c.isAlphanum || c = '_'

/-- Split on runs of whitespace, dropping empty pieces: Python's
`text.split()`.  The first argument accumulates the current word reversed. -/
def pySplitAux : List Char → List Char → List (List Char)
  | acc, [] => if acc.isEmpty then [] else [acc.reverse]
  | acc, c :: rest =>
      if c.isWhitespace then
        if acc.isEmpty then pySplitAux [] rest else acc.reverse :: pySplitAux [] rest
      else pySplitAux (c :: acc) rest

/-- `text.split()`. -/
def pySplit (text : List Char) : List (List Char) := pySplitAux [] text

/-- `normalize_text` (lines 56-75): lowercase, drop every character that is
neither a word character nor whitespace (`re.sub(r'[^\w\s]', '', text)`),
then `' '.join(text.split())`. -/
def normalizeText (text : List Char) : List Char :=
  let lowered := text.map Char.toLower
  let cleaned := lowered.filter (fun c => isWordChar c || c.isWhitespace)
  List.intercalate [' '] (pySplit cleaned)

/-- The word-boundary assertion `\b` at position `i` of `text`: holds iff
exactly one of the adjacent characters is a word character (positions outside
the string count as non-word). -/
def atBoundary (text : List Char) (i : Nat) : Bool :=
  let before := decide (0 < i) && isWordChar (text.getD (i - 1) ' ')
  let after := decide (i < text.length) && isWordChar (text.getD i ' ')
  before != after

/-- `re.search(r'\b' + re.escape(word) + r'\b', text) is not None`:
some position carries a `\b`-delimited literal occurrence of `word`. -/
def wholeWordMatch (word text : List Char) : Bool :=
  (List.range (text.length + 1)).any (fun i =>
    atBoundary text i
      && decide (i + word.length ≤ text.length)
      && decide ((text.drop i).take word.length = word)
      && atBoundary text (i + word.length))

/-- Stable insertion used by `sortByLenDesc`: the element is placed after
exactly the keys of strictly greater length, and before every key of equal
or smaller length.  `sortByLenDesc` only ever inserts an element into the
sorted image of entries that followed it in the vocabulary, so equal-length
keys keep their vocabulary order, matching Python's stable
`sorted(..., key=len, reverse=True)`. -/
def insertByLenDesc (p : List Char × String) :
    List (List Char × String) → List (List Char × String)
  | [] => [p]
  | q :: rest =>
      if q.1.length > p.1.length then q :: insertByLenDesc p rest else p :: q :: rest

/-- `sorted(self.block_words.items(), key=lambda x: len(x[0]), reverse=True)`:
stable sort of the vocabulary by key length, longest first. -/
def sortByLenDesc : List (List Char × String) → List (List Char × String)
  | [] => []
  | p :: rest => insertByLenDesc p (sortByLenDesc rest)

/-- The detection result (`block_id`, `radius`, `matched_word`; the
passthrough fields `user_id`, `original_text`, `timestamp` carry no logic
and are omitted). -/
structure Detection where
  blockId : String
  radius : Nat
  matchedWord : List Char
deriving DecidableEq, Repr

/-- The loop over `sorted_words` in `detect_block` (lines 98-117): the first
vocabulary entry whose normalized key whole-word-matches the normalized
transcript wins. -/
def findMatch (normalized : List Char) :
    List (List Char × String) → Option (String × List Char)
  | [] => none
  | (word, blockId) :: rest =>
      if wholeWordMatch (normalizeText word) normalized then some (blockId, word)
      else findMatch normalized rest

/-! ### Radius extraction (`_extract_radius`, lines 121-149) -/

/-- `int(...)` on a digit run. -/
def digitsToNat (ds : List Char) : Nat :=
  ds.foldl (fun acc c => 10 * acc + (c.toNat - '0'.toNat)) 0

/-- Consume a non-empty maximal run of characters in class `p` (the regex
`p+` where the following pattern piece is disjoint from `p`). -/
def takeRun (p : Char → Bool) (s : List Char) : Option (List Char × List Char) :=
  let pre := s.takeWhile p
  if pre.isEmpty then none else some (pre, s.dropWhile p)

/-- Pattern 1, `in\s+(\d+)\s+blocks?`, anchored at the current position. -/
def matchInAt : List Char → Option Nat
  | 'i' :: 'n' :: rest =>
      match takeRun Char.isWhitespace rest with
      | none => none
      | some (_, r1) =>
        match takeRun Char.isDigit r1 with
        | none => none
        | some (ds, r2) =>
          match takeRun Char.isWhitespace r2 with
          | none => none
          | some (_, r3) =>
            if List.isPrefixOf (String.toList "block") r3 then some (digitsToNat ds) else none
  | _ => none

/-- Pattern 2, `radius\s+(\d+)`, anchored at the current position. -/
def matchRadiusAt (s : List Char) : Option Nat :=
  if List.isPrefixOf (String.toList "radius") s then
    match takeRun Char.isWhitespace (s.drop 6) with
    | none => none
    | some (_, r1) =>
      match takeRun Char.isDigit r1 with
      | none => none
      | some (ds, _) => some (digitsToNat ds)
  else none

/-- Pattern 3, `(\d+)\s+blocks?`, anchored at the current position. -/
def matchNumBlocksAt (s : List Char) : Option Nat :=
  match takeRun Char.isDigit s with
  | none => none
  | some (ds, r1) =>
    match takeRun Char.isWhitespace r1 with
    | none => none
    | some (_, r2) =>
      if List.isPrefixOf (String.toList "block") r2 then some (digitsToNat ds) else none

/-- Pattern 4, `(\d+)`, anchored at the current position. -/
def matchBareAt (s : List Char) : Option Nat :=
  match takeRun Char.isDigit s with
  | none => none
  | some (ds, _) => some (digitsToNat ds)

/-- `re.search`: try the anchored pattern at each start position, leftmost
first. -/
def reSearch (f : List Char → Option Nat) : List Char → Option Nat
  | [] => f []
  | c :: rest =>
      match f (c :: rest) with
      | some n => some n
      | none => reSearch f rest

/-- `_extract_radius` (lines 121-149): the four patterns are tried in order;
the first one with a match anywhere in the text wins and its captured number
is clamped by `min(radius, Config.MAX_RADIUS)`.  (The `except ValueError`
branch is dead: a `\d+` capture always parses.) -/
def extractRadius (text : List Char) : Option Nat :=
  match reSearch matchInAt text with
  | some n => some (min n Config.MAX_RADIUS)
  | none =>
    match reSearch matchRadiusAt text with
    | some n => some (min n Config.MAX_RADIUS)
    | none =>
      match reSearch matchNumBlocksAt text with
      | some n => some (min n Config.MAX_RADIUS)
      | none =>
        match reSearch matchBareAt text with
        | some n => some (min n Config.MAX_RADIUS)
        | none => none

/-- Follows the claim's words (refinement reference, not code): the fourth
fallback reads "a bare trailing number" — a digit run at the very end of the
text (`(\d+)$`). -/
def trailingNumberMatch (text : List Char) : Option Nat :=
  let revDigits := text.reverse.takeWhile Char.isDigit
  if revDigits.isEmpty then none else some (digitsToNat revDigits.reverse)

/-- `radius or Config.DEFAULT_RADIUS` (line 113): Python truthiness replaces
both `None` and `0` by the default. -/
def radiusOrDefault (radius : Option Nat) : Nat :=
  match radius with
  | none => Config.DEFAULT_RADIUS
  | some 0 => Config.DEFAULT_RADIUS
  | some (n + 1) => n + 1

/-- `detect_block` (lines 77-119): normalize, sort the vocabulary longest key
first, take the first whole-word match, and attach the extracted (or default)
radius. -/
def detectBlock (vocab : List (List Char × String)) (text : List Char) : Option Detection :=
  let normalized := normalizeText text
  match findMatch normalized (sortByLenDesc vocab) with
  | none => none
  | some (blockId, word) =>
      some { blockId := blockId
             radius := radiusOrDefault (extractRadius normalized)
             matchedWord := word }

/-! # Theorems -/

/-! ## Helper lemmas -/

/-- A successful `findMatch` result's key whole-word-matches the normalized
transcript: the only `some` branch is guarded by exactly that test. -/
theorem findMatch_sound (normalized : List Char) (l : List (List Char × String))
    (blockId : String) (word : List Char)
    (h : findMatch normalized l = some (blockId, word)) :
    wholeWordMatch (normalizeText word) normalized = true := by
  induction l with
  | nil => simp [findMatch] at h
  | cons p rest ih =>
      rcases p with ⟨w, b⟩
      by_cases hw : wholeWordMatch (normalizeText w) normalized = true
      · simp only [findMatch, hw, if_true, Option.some.injEq, Prod.mk.injEq] at h
        rcases h with ⟨rfl, rfl⟩
        exact hw
      · simp only [findMatch, hw, if_false] at h
        exact ih h

/-- `escapeQuotes` and the claim's escaping rule agree on messages without
backslashes. -/
theorem escapeQuotes_agree (m : List Char) (hm : '\\' ∉ m) :
    escapeQuotes m = escapeQuotesAndBackslashes m := by
  induction m with
  | nil => rfl
  | cons c rest ih =>
      have hc : c ≠ '\\' := fun hc => hm (hc ▸ List.mem_cons_self c rest)
      have hrest : '\\' ∉ rest := fun hr => hm (List.mem_cons_of_mem c hr)
      by_cases hq : c = '"'
      · simp [escapeQuotes, escapeQuotesAndBackslashes, hq, ih hrest]
      · simp [escapeQuotes, escapeQuotesAndBackslashes, hq, hc, ih hrest]

/-- `escapeQuotes` rewrites each double quote to backslash-quote and leaves
every other character untouched. -/
theorem escapeQuotes_eq_flatMap (m : List Char) :
    escapeQuotes m = m.flatMap (fun c => if c = '"' then ['\\', '"'] else [c]) := by
  induction m with
  | nil => rfl
  | cons c rest ih =>
      by_cases hq : c = '"' <;> simp [escapeQuotes, hq, ih]

/-- The volume-guard loop is the identity whenever its guard is already
false. -/
theorem shrinkLoop_guard_false (fuel : Nat) (r : Int)
    (h : ¬(fillVolume r > (FILL_LIMIT_BLOCKS : Int) ∧ r > 0)) :
    shrinkLoop fuel r = r := by
  cases fuel with
  | zero => rfl
  | succ k => simp only [shrinkLoop, if_neg h]

/-! ## C2 — session stop versus buffer flush -/

/-- C2: the claim says that on session stop the retained audio buffer is
flushed and transcribed before the session's resources are released, so no
buffered speech is silently discarded.  The code does the opposite:
`bot.py` calls `stop_session()` (which clears `audio_buffer` and drops
`is_transcribing`) before `flush_buffer()` (whose guard needs a non-empty
buffer AND an active session), so the teardown flush never transcribes
anything and a retained buffer is discarded.  First conjunct: no teardown,
from any state, ever submits a chunk.  Second: the concrete failing state.
Third: `flush_buffer` alone, called before the stop as the claim orders the
steps, would have transcribed the retained bytes. -/
theorem c2_teardown_discards_buffer :
    (∀ st : TranscriptionState, (teardownSequence st).2 = none)
    ∧ teardownSequence ⟨true, [1, 2, 3]⟩ = (⟨false, []⟩, none)
    ∧ flushBuffer ⟨true, [1, 2, 3]⟩ = (⟨true, []⟩, some [1, 2, 3])
    ∧ teardownSequenceClaimed ⟨true, [1, 2, 3]⟩ = (⟨false, []⟩, some [1, 2, 3]) := by
  refine ⟨?_, by decide, by decide, by decide⟩
  intro st
  rcases st with ⟨b, buf⟩
  cases b <;> simp [teardownSequence, stopSession, flushBuffer]

/-! ## C7 — whole-word vocabulary matching -/

/-- C7: `detect_block` matches a vocabulary phrase only at whole-word
boundaries of the normalized transcript (every successful detection's matched
word passes the word-boundary search), and in particular the vocabulary
`{"sand": "X", "stone": "Y"}` on input "sandstone" yields no detection. -/
theorem c7_whole_word_only :
    (∀ (vocab : List (List Char × String)) (text : List Char) (d : Detection),
      detectBlock vocab text = some d →
        wholeWordMatch (normalizeText d.matchedWord) (normalizeText text) = true)
    ∧ detectBlock [(String.toList "sand", "X"), (String.toList "stone", "Y")]
        (String.toList "sandstone") = none := by
  constructor
  · intro vocab text d h
    simp only [detectBlock] at h
    rcases hf : findMatch (normalizeText text) (sortByLenDesc vocab) with _ | ⟨bid, w⟩
    · rw [hf] at h; exact absurd h (by simp)
    · rw [hf] at h
      simp only [Option.some.injEq] at h
      have hw : d.matchedWord = w := by rw [← h]
      rw [hw]
      exact findMatch_sound _ _ _ _ hf
  · decide

/-- Witness for C7: a concrete successful detection ("stone" in "a stone")
whose matched word indeed passes the whole-word search. -/
theorem c7_whole_word_only_witness :
    wholeWordMatch (normalizeText (String.toList "stone"))
      (normalizeText (String.toList "a stone")) = true := by
  have h := c7_whole_word_only.1 [(String.toList "stone", "Y")] (String.toList "a stone")
    ⟨"Y", 3, String.toList "stone"⟩ (by decide)
  simpa using h

/-! ## C9 — broadcast escaping -/

/-- C9 counterexample: for the one-character message `\`, `say` sends the
command `say "\"` with the backslash NOT escaped, while the claim's escaping
rule (backslashes and double quotes both escaped) would send `say "\\"`.
The claim is therefore false for this message. -/
theorem c9_counterexample :
    sayCommand ['\\'] = String.toList "say \"\\\""
    ∧ sayCommandClaimed ['\\'] = String.toList "say \"\\\\\""
    ∧ sayCommand ['\\'] ≠ sayCommandClaimed ['\\'] := by decide

/-- C9 amended: for EVERY message string, `say` sends `say "<message>"`
where each double quote of the message is escaped to backslash-quote and
every other character — backslashes included — passes through unchanged
(the unconditional first conjunct); consequently the claimed escaping (which
also escapes backslashes) agrees with the code exactly on messages that
contain no backslash (the conditional second conjunct). -/
theorem c9_amended (m : List Char) :
    sayCommand m
      = String.toList "say \"" ++ m.flatMap (fun c => if c = '"' then ['\\', '"'] else [c])
          ++ ['"']
    ∧ ('\\' ∉ m → sayCommand m = sayCommandClaimed m) := by
  constructor
  · unfold sayCommand
    rw [escapeQuotes_eq_flatMap]
  · intro hm
    unfold sayCommand sayCommandClaimed
    rw [escapeQuotes_agree m hm]

/-- Witness for C9 amended: the unconditional clause at the message `a\b`
(which contains a backslash, passed through unchanged), and the agreement
clause at the backslash-free message `hello "world"`. -/
theorem c9_amended_witness :
    sayCommand (String.toList "a\\b")
      = String.toList "say \""
          ++ (String.toList "a\\b").flatMap (fun c => if c = '"' then ['\\', '"'] else [c])
          ++ ['"']
    ∧ sayCommand (String.toList "hello \"world\"")
        = sayCommandClaimed (String.toList "hello \"world\"") :=
  ⟨(c9_amended (String.toList "a\\b")).1,
    (c9_amended (String.toList "hello \"world\"")).2 (by decide)⟩

/-! ## C3 — radius clamp in `replace_blocks_around_player` -/

/-- C3 counterexample: the claim states the synthesized radius always lies in
`[0, MAX_RADIUS]`, but a negative requested radius passes both clamps
untouched (`min` keeps it, and the volume-guard loop requires `radius > 0`):
requesting radius `-1` synthesizes radius `-1`. -/
theorem c3_counterexample :
    synthesizedRadius (-1) = -1
    ∧ ¬(0 ≤ synthesizedRadius (-1) ∧ synthesizedRadius (-1) ≤ (Config.MAX_RADIUS : Int)) := by
  decide

/-- C3 amended: for every requested radius `r` the synthesized radius equals
`min r MAX_RADIUS` (the volume-guard loop never fires at `MAX_RADIUS = 10`,
where the fill volume is 5292 ≤ 32768), and whenever the requested radius is
non-negative the synthesized radius lies in `[0, MAX_RADIUS]`. -/
theorem c3_amended (r : Int) :
    synthesizedRadius r = min r (Config.MAX_RADIUS : Int)
    ∧ (0 ≤ r →
        0 ≤ synthesizedRadius r ∧ synthesizedRadius r ≤ (Config.MAX_RADIUS : Int)) := by
  have key : synthesizedRadius r = min r (Config.MAX_RADIUS : Int) := by
    unfold synthesizedRadius
    set m := min r (Config.MAX_RADIUS : Int) with hm
    have hm10 : m ≤ 10 := by
      rw [hm]
      exact min_le_right r _
    apply shrinkLoop_guard_false
    rintro ⟨hvol, hpos⟩
    have h1 : 1 ≤ m := hpos
    have : fillVolume m ≤ 32768 := by
      interval_cases m <;> norm_num [fillVolume]
    have hlim : (FILL_LIMIT_BLOCKS : Int) = 32768 := rfl
    omega
  refine ⟨key, fun hr => ?_⟩
  rw [key]
  have : (Config.MAX_RADIUS : Int) = 10 := rfl
  omega

/-- Witness for C3 amended, at requested radius 7 (which is below the
maximum, so it is used as-is). -/
theorem c3_amended_witness :
    synthesizedRadius 7 = min 7 (Config.MAX_RADIUS : Int)
    ∧ 0 ≤ synthesizedRadius 7 ∧ synthesizedRadius 7 ≤ (Config.MAX_RADIUS : Int) :=
  ⟨(c3_amended 7).1, (c3_amended 7).2 (by decide)⟩

/-! ## C8 — radius extraction order -/

/-- Every value `_extract_radius` returns has been clamped by
`min(radius, Config.MAX_RADIUS)`. -/
theorem extractRadius_le (t : List Char) (n : Nat) (h : extractRadius t = some n) :
    n ≤ Config.MAX_RADIUS := by
  unfold extractRadius at h
  cases h1 : reSearch matchInAt t with
  | some m =>
      rw [h1] at h
      simp only [Option.some.injEq] at h
      omega
  | none =>
      rw [h1] at h
      cases h2 : reSearch matchRadiusAt t with
      | some m =>
          rw [h2] at h
          simp only [Option.some.injEq] at h
          omega
      | none =>
          rw [h2] at h
          cases h3 : reSearch matchNumBlocksAt t with
          | some m =>
              rw [h3] at h
              simp only [Option.some.injEq] at h
              omega
          | none =>
              rw [h3] at h
              cases h4 : reSearch matchBareAt t with
              | some m =>
                  rw [h4] at h
                  simp only [Option.some.injEq] at h
                  omega
              | none =>
                  rw [h4] at h
                  exact absurd h (by simp)

/-- C8 counterexample: on the text "5 stone" none of the claim's patterns
matches — not "in N blocks", not "radius N", not "N blocks", and there is no
bare TRAILING number — so under the claim the detection radius would be the
default (3); but the code's fourth pattern `(\d+)` matches a bare number
anywhere and extracts 5. -/
theorem c8_counterexample :
    extractRadius (String.toList "5 stone") = some 5
    ∧ reSearch matchInAt (String.toList "5 stone") = none
    ∧ reSearch matchRadiusAt (String.toList "5 stone") = none
    ∧ reSearch matchNumBlocksAt (String.toList "5 stone") = none
    ∧ trailingNumberMatch (String.toList "5 stone") = none
    ∧ radiusOrDefault none = Config.DEFAULT_RADIUS
    ∧ (5 : Nat) ≠ Config.DEFAULT_RADIUS := by decide

/-- C8 amended: `_extract_radius` tries, in order, patterns meaning
"in N blocks", "radius N", "N blocks", then a bare number anywhere in the
text (not only trailing); the first pattern that matches wins, the extracted
value is clamped to `Config.MAX_RADIUS`, and when no pattern matches the
detection radius is `Config.DEFAULT_RADIUS`.  The stated examples hold:
"clear chunk stone in 5 blocks" gives 5, "clear chunk stone radius 3" gives
3, and "clear chunk stone" detects with the default radius. -/
theorem c8_amended :
    extractRadius (String.toList "clear chunk stone in 5 blocks") = some 5
    ∧ extractRadius (String.toList "clear chunk stone radius 3") = some 3
    ∧ extractRadius (String.toList "clear chunk stone") = none
    ∧ detectBlock [(String.toList "stone", "minecraft:stone")]
        (String.toList "clear chunk stone")
        = some ⟨"minecraft:stone", Config.DEFAULT_RADIUS, String.toList "stone"⟩
    ∧ (∀ t n, reSearch matchInAt t = some n →
        extractRadius t = some (min n Config.MAX_RADIUS))
    ∧ (∀ t n, reSearch matchInAt t = none → reSearch matchRadiusAt t = some n →
        extractRadius t = some (min n Config.MAX_RADIUS))
    ∧ (∀ t n, reSearch matchInAt t = none → reSearch matchRadiusAt t = none →
        reSearch matchNumBlocksAt t = some n →
        extractRadius t = some (min n Config.MAX_RADIUS))
    ∧ (∀ t n, reSearch matchInAt t = none → reSearch matchRadiusAt t = none →
        reSearch matchNumBlocksAt t = none → reSearch matchBareAt t = some n →
        extractRadius t = some (min n Config.MAX_RADIUS))
    ∧ (∀ t, reSearch matchInAt t = none → reSearch matchRadiusAt t = none →
        reSearch matchNumBlocksAt t = none → reSearch matchBareAt t = none →
        extractRadius t = none ∧ radiusOrDefault (extractRadius t) = Config.DEFAULT_RADIUS)
    ∧ (∀ t n, extractRadius t = some n → n ≤ Config.MAX_RADIUS) := by
  refine ⟨by decide, by decide, by decide, by decide, ?_, ?_, ?_, ?_, ?_, extractRadius_le⟩
  · intro t n h1
    unfold extractRadius
    rw [h1]
  · intro t n h1 h2
    unfold extractRadius
    rw [h1, h2]
  · intro t n h1 h2 h3
    unfold extractRadius
    rw [h1, h2, h3]
  · intro t n h1 h2 h3 h4
    unfold extractRadius
    rw [h1, h2, h3, h4]
  · intro t h1 h2 h3 h4
    have he : extractRadius t = none := by
      unfold extractRadius
      rw [h1, h2, h3, h4]
    exact ⟨he, by rw [he]; rfl⟩

/-- Witness for C8 amended: the first pattern ("in N blocks") wins on
"in 99 blocks" and its value 99 is clamped to `MAX_RADIUS = 10`. -/
theorem c8_amended_witness :
    reSearch matchInAt (String.toList "in 99 blocks") = some 99
    ∧ extractRadius (String.toList "in 99 blocks") = some 10 := by
  have h1 : reSearch matchInAt (String.toList "in 99 blocks") = some 99 := by decide
  have h2 := c8_amended.2.2.2.2.1 (String.toList "in 99 blocks") 99 h1
  exact ⟨h1, by simpa using h2⟩

/-! ## C10 — the detection radius is never zero -/

/-- C10: the radius of every successful detection is non-zero — the Python
expression `radius or Config.DEFAULT_RADIUS` replaces both a missing radius
and an explicitly spoken radius 0 by the default — so the returned radius is
either `DEFAULT_RADIUS` or the value extracted from the normalized
transcript, which lies in `[1, MAX_RADIUS]`. -/
theorem c10_radius_nonzero (vocab : List (List Char × String)) (text : List Char)
    (d : Detection) (h : detectBlock vocab text = some d) :
    d.radius ≠ 0
    ∧ (d.radius = Config.DEFAULT_RADIUS
        ∨ (1 ≤ d.radius ∧ d.radius ≤ Config.MAX_RADIUS
            ∧ extractRadius (normalizeText text) = some d.radius)) := by
  simp only [detectBlock] at h
  rcases hf : findMatch (normalizeText text) (sortByLenDesc vocab) with _ | ⟨bid, w⟩
  · rw [hf] at h
    exact absurd h (by simp)
  · rw [hf] at h
    simp only [Option.some.injEq] at h
    have hr : d.radius = radiusOrDefault (extractRadius (normalizeText text)) := by
      rw [← h]
    rcases he : extractRadius (normalizeText text) with _ | n
    · rw [he] at hr
      refine ⟨?_, Or.inl hr⟩
      rw [hr]
      decide
    · cases n with
      | zero =>
          rw [he] at hr
          refine ⟨?_, Or.inl hr⟩
          rw [hr]
          decide
      | succ k =>
          rw [he] at hr
          have hle : k + 1 ≤ Config.MAX_RADIUS := extractRadius_le _ _ he
          refine ⟨?_, Or.inr ⟨?_, ?_, ?_⟩⟩
          · rw [hr]; simp [radiusOrDefault]
          · rw [hr]; simp [radiusOrDefault]
          · rw [hr]; simpa [radiusOrDefault] using hle
          · rw [hr]; rfl

/-- Witness for C10: "stone in 0 blocks" extracts radius 0, which the
detection replaces by the default 3. -/
theorem c10_radius_nonzero_witness :
    detectBlock [(String.toList "stone", "minecraft:stone")]
      (String.toList "stone in 0 blocks")
      = some ⟨"minecraft:stone", 3, String.toList "stone"⟩
    ∧ (3 : Nat) ≠ 0 := by
  have hd : detectBlock [(String.toList "stone", "minecraft:stone")]
      (String.toList "stone in 0 blocks")
      = some ⟨"minecraft:stone", 3, String.toList "stone"⟩ := by decide
  have h := c10_radius_nonzero [(String.toList "stone", "minecraft:stone")]
    (String.toList "stone in 0 blocks") ⟨"minecraft:stone", 3, String.toList "stone"⟩ hd
  exact ⟨hd, h.1⟩

/-! ## C4 and C5 — cooldown and reconnect-retry in `execute_command` -/

/-- After any `execute_command` call that returns a response, the cooldown
entry for the call's key holds the call's timestamp (both the direct-success
path and the retry-success path run `_update_cooldown`). -/
theorem executeCommand_success_time (env : RemoteEnv) (st : RconState) (now : Int)
    (cmd : String) (uid : Option Int) (bypass : Bool) (resp : String)
    (h : (executeCommand env st now cmd uid bypass).response = some resp) :
    (executeCommand env st now cmd uid bypass).state.lastCommandTime (cooldownKey uid)
      = some now := by
  cases hc : (ensureConnected env st).1.connected
  · simp [executeCommand, hc] at h
  · cases hg : (!bypass && !checkCooldown (ensureConnected env st).1 now uid)
    · cases hm : nextCommand (ensureConnected env st).2.1.commands
      · cases hb : nextConnect (ensureConnected env st).2.1.connects
        · simp [executeCommand, hc, hg, hm, hb] at h
        · cases hm2 : nextCommand (ensureConnected env st).2.1.commands.tail
          · simp [executeCommand, hc, hg, hm, hb, hm2] at h
          · simp [executeCommand, hc, hg, hm, hb, hm2, updateCooldown]
      · simp [executeCommand, hc, hg, hm, updateCooldown]
    · simp [executeCommand, hc, hg] at h

/-- A call whose key's cooldown entry is within the window is rejected:
`execute_command` returns `None` and the trace contains no remote command
(the only remote call it may contain is the connect prologue). -/
theorem executeCommand_cooldown_reject (env : RemoteEnv) (st : RconState) (now : Int)
    (cmd : String) (uid : Option Int) (t0 : Int)
    (hkey : st.lastCommandTime (cooldownKey uid) = some t0)
    (hwin : now - t0 < (Config.COOLDOWN_SECONDS : Int)) :
    (executeCommand env st now cmd uid false).response = none
    ∧ ∀ c : String, RemoteCall.command c ∉ (executeCommand env st now cmd uid false).calls := by
  have hchk : ∀ st' : RconState, st'.lastCommandTime = st.lastCommandTime →
      checkCooldown st' now uid = false := by
    intro st' hst'
    unfold checkCooldown
    rw [hst', hkey]
    simp only [ge_iff_le, decide_eq_false_iff_not, not_le]
    omega
  cases hc : st.connected
  · cases hb : nextConnect env.connects
    · constructor
      · simp [executeCommand, ensureConnected, hc, hb]
      · intro c
        simp [executeCommand, ensureConnected, hc, hb]
    · have hk2 := hchk { st with connected := true } rfl
      constructor
      · simp [executeCommand, ensureConnected, hc, hb, hk2]
      · intro c
        simp [executeCommand, ensureConnected, hc, hb, hk2]
  · have hk2 := hchk st rfl
    constructor
    · simp [executeCommand, ensureConnected, hc, hk2]
    · intro c
      simp [executeCommand, ensureConnected, hc, hk2]

/-- C4: after a successful `execute_command` at time `t1`, a second
non-bypassing call with the same key within `COOLDOWN_SECONDS` returns `None`
and issues no remote command, and the cooldown check passes again once the
window has elapsed. -/
theorem c4_cooldown (env1 env2 : RemoteEnv) (st : RconState) (uid : Option Int)
    (t1 t2 t3 : Int) (cmd1 cmd2 : String) (resp : String)
    (hsucc : (executeCommand env1 st t1 cmd1 uid false).response = some resp)
    (hwin : t2 - t1 < (Config.COOLDOWN_SECONDS : Int))
    (hafter : (Config.COOLDOWN_SECONDS : Int) ≤ t3 - t1) :
    (executeCommand env2 (executeCommand env1 st t1 cmd1 uid false).state t2 cmd2 uid
        false).response = none
    ∧ (∀ c : String, RemoteCall.command c ∉
        (executeCommand env2 (executeCommand env1 st t1 cmd1 uid false).state t2 cmd2 uid
          false).calls)
    ∧ checkCooldown (executeCommand env1 st t1 cmd1 uid false).state t3 uid = true := by
  have hkey := executeCommand_success_time env1 st t1 cmd1 uid false resp hsucc
  have hrej := executeCommand_cooldown_reject env2
    (executeCommand env1 st t1 cmd1 uid false).state t2 cmd2 uid t1 hkey hwin
  refine ⟨hrej.1, hrej.2, ?_⟩
  unfold checkCooldown
  rw [hkey]
  simp only [ge_iff_le, decide_eq_true_eq]
  omega

/-- Witness for C4: a first call at time 0 succeeds; the same-key call at
time 3 (< 5) is rejected without any remote command; at time 10 (≥ 5) the
cooldown check passes again. -/
theorem c4_cooldown_witness :
    (executeCommand ⟨[], []⟩
        (executeCommand ⟨[true], [some "ok"]⟩ ⟨false, fun _ => none⟩ 0 "list" (some 5)
          false).state 3 "say hi" (some 5) false).response = none
    ∧ (∀ c : String, RemoteCall.command c ∉
        (executeCommand ⟨[], []⟩
          (executeCommand ⟨[true], [some "ok"]⟩ ⟨false, fun _ => none⟩ 0 "list" (some 5)
            false).state 3 "say hi" (some 5) false).calls)
    ∧ checkCooldown
        (executeCommand ⟨[true], [some "ok"]⟩ ⟨false, fun _ => none⟩ 0 "list" (some 5)
          false).state 10 (some 5) = true :=
  c4_cooldown ⟨[true], [some "ok"]⟩ ⟨[], []⟩ ⟨false, fun _ => none⟩ (some 5) 0 3 10
    "list" "say hi" "ok" (by decide) (by decide) (by decide)

/-- C5: when a connected call's first command attempt raises, exactly one
reconnect is attempted; when the reconnect succeeds the command is retried
exactly once and the call returns the retry's result, and when the reconnect
fails there is no retry.  The two trace equalities show no second reconnect
or retry ever happens within one call. -/
theorem c5_retry_once (env : RemoteEnv) (st : RconState) (uid : Option Int) (now : Int)
    (cmd : String) (bypass : Bool)
    (hconn : st.connected = true)
    (hgate : bypass = true ∨ checkCooldown st now uid = true)
    (hfail : nextCommand env.commands = none) :
    (nextConnect env.connects = true →
      (executeCommand env st now cmd uid bypass).calls
        = [RemoteCall.command cmd, RemoteCall.connect, RemoteCall.command cmd]
      ∧ (executeCommand env st now cmd uid bypass).response = nextCommand env.commands.tail)
    ∧ (nextConnect env.connects = false →
      (executeCommand env st now cmd uid bypass).calls
        = [RemoteCall.command cmd, RemoteCall.connect]
      ∧ (executeCommand env st now cmd uid bypass).response = none) := by
  have hgateb : (!bypass && !checkCooldown st now uid) = false := by
    rcases hgate with hb | hcheck
    · rw [hb]; rfl
    · rw [hcheck]; simp
  constructor
  · intro hb
    cases hr : nextCommand env.commands.tail <;>
      simp [executeCommand, ensureConnected, hconn, hgateb, hfail, hb, hr]
  · intro hb
    simp [executeCommand, ensureConnected, hconn, hgateb, hfail, hb]

/-- Witness for C5: scripted first command raises, reconnect succeeds, retry
returns "second"; the call performs command-connect-command and returns the
retry's response. -/
theorem c5_retry_once_witness :
    (executeCommand ⟨[true], [none, some "second"]⟩ ⟨true, fun _ => none⟩ 0 "list" none
        true).calls
      = [RemoteCall.command "list", RemoteCall.connect, RemoteCall.command "list"]
    ∧ (executeCommand ⟨[true], [none, some "second"]⟩ ⟨true, fun _ => none⟩ 0 "list" none
        true).response = some "second" := by
  have h := (c5_retry_once ⟨[true], [none, some "second"]⟩ ⟨true, fun _ => none⟩ none 0
    "list" true rfl (Or.inl rfl) rfl).1 rfl
  exact ⟨h.1, h.2.trans rfl⟩

/-! ## C6 — per-player isolation of slab failures -/

/-- When every slab in the window succeeds, the loop issues all of them and
reports success. -/
theorem chunkLoop_all_ok (slabOk : Nat → Bool) (fuel : Nat) :
    ∀ i : Nat, (∀ k, i ≤ k → k < i + fuel → slabOk k = true) →
      chunkLoop slabOk i fuel = (true, List.range' i fuel) := by
  induction fuel with
  | zero => intro i _; rfl
  | succ n ih =>
      intro i h
      have hi : slabOk i = true := h i le_rfl (by omega)
      have hrest := ih (i + 1) (fun k hk1 hk2 => h k (by omega) (by omega))
      simp [chunkLoop, hi, hrest, List.range']

/-- When slab `i + j` is the first failing slab in the window, the loop stops
there: it reports failure having issued exactly the slabs `i .. i + j`. -/
theorem chunkLoop_first_fail (slabOk : Nat → Bool) (fuel : Nat) :
    ∀ i j : Nat, j < fuel → slabOk (i + j) = false →
      (∀ k, k < j → slabOk (i + k) = true) →
      chunkLoop slabOk i fuel = (false, List.range' i (j + 1)) := by
  induction fuel with
  | zero => intro i j hj; omega
  | succ n ih =>
      intro i j hj hfail hok
      cases j with
      | zero =>
          have hi : slabOk i = false := by simpa using hfail
          simp [chunkLoop, hi, List.range']
      | succ m =>
          have hi : slabOk i = true := by simpa using hok 0 (Nat.succ_pos m)
          have hfail' : slabOk (i + 1 + m) = false := by
            have : i + 1 + m = i + (m + 1) := by omega
            rw [this]
            exact hfail
          have hok' : ∀ k, k < m → slabOk (i + 1 + k) = true := by
            intro k hk
            have : i + 1 + k = i + (k + 1) := by omega
            rw [this]
            exact hok (k + 1) (by omega)
          have hrest := ih (i + 1) m (by omega) hfail' hok'
          simp [chunkLoop, hi, hrest, List.range']

/-- C6: in the all-players chunk replacement, the result is a mapping with
one boolean entry for every fetched player, in order; each player's entry
depends only on that player's own slab outcomes; a player whose first failing
slab is `j` has exactly the slabs `0 .. j` issued and gets entry `false`,
aborting only that player's remaining slabs; and a player whose slabs all
succeed has all `numSegments` slabs issued and gets entry `true`.  No failure
escapes the mapping: the batch is total by construction, mirroring
`execute_command`'s catch-all exception handling. -/
theorem c6_per_player_isolation (players : List String) (slabOk : String → Nat → Bool)
    (worldMinY worldMaxY : Int) :
    ((replaceChunkAllPlayers players slabOk worldMinY worldMaxY).map Prod.fst = players)
    ∧ (∀ pr, pr ∈ replaceChunkAllPlayers players slabOk worldMinY worldMaxY →
        pr.2 = (replaceChunkExec (slabOk pr.1) worldMinY worldMaxY).1)
    ∧ (∀ p j, j < (numSegments worldMinY worldMaxY).toNat → slabOk p j = false →
        (∀ k, k < j → slabOk p k = true) →
        replaceChunkExec (slabOk p) worldMinY worldMaxY = (false, List.range (j + 1)))
    ∧ (∀ p, (∀ k, k < (numSegments worldMinY worldMaxY).toNat → slabOk p k = true) →
        replaceChunkExec (slabOk p) worldMinY worldMaxY
          = (true, List.range (numSegments worldMinY worldMaxY).toNat)) := by
  refine ⟨?_, ?_, ?_, ?_⟩
  · rw [replaceChunkAllPlayers, List.map_map]
    conv_rhs => rw [← List.map_id players]
    rfl
  · intro pr hpr
    simp only [replaceChunkAllPlayers, List.mem_map] at hpr
    obtain ⟨p, _, rfl⟩ := hpr
    rfl
  · intro p j hj hfail hok
    unfold replaceChunkExec
    rw [List.range_eq_range']
    exact chunkLoop_first_fail (slabOk p) _ 0 j hj (by simpa using hfail)
      (fun k hk => by simpa using hok k hk)
  · intro p hok
    unfold replaceChunkExec
    rw [List.range_eq_range']
    exact chunkLoop_all_ok (slabOk p) _ 0 (fun k _ hk => hok k (by omega))

/-- Witness for C6 over the default world span (4 slabs): Alice's slabs all
succeed, Bob's slab 2 fails; the mapping still covers both players, Bob
executed only slabs 0-2, Alice all 4. -/
theorem c6_per_player_isolation_witness :
    ((replaceChunkAllPlayers ["Alice", "Bob"]
        (fun p i => p == "Alice" || decide (i < 2)) (-64) 320).map Prod.fst
      = ["Alice", "Bob"])
    ∧ replaceChunkExec ((fun (p : String) (i : Nat) => p == "Alice" || decide (i < 2)) "Bob")
        (-64) 320 = (false, List.range 3)
    ∧ replaceChunkExec ((fun (p : String) (i : Nat) => p == "Alice" || decide (i < 2)) "Alice")
        (-64) 320 = (true, List.range 4) := by
  have h := c6_per_player_isolation ["Alice", "Bob"]
    (fun p i => p == "Alice" || decide (i < 2)) (-64) 320
  refine ⟨h.1, ?_, ?_⟩
  · exact h.2.2.1 "Bob" 2 (by decide) (by decide) (by decide)
  · have h4 : (numSegments (-64) 320).toNat = 4 := by decide
    have := h.2.2.2 "Alice" (by decide)
    rw [h4] at this
    exact this

/-! ## C1 — slab decomposition covers the vertical span -/

/-- For a non-degenerate span, the number of slabs is the ceiling division of
the span height by the 113-block segment height (Python's floor division of
positives agrees with `Nat` division). -/
theorem numSegments_toNat (a b : Int) (h : a ≤ b) :
    (numSegments a b).toNat = ((b - a + 1).toNat + 112) / 113 := by
  unfold numSegments heightSpan
  have hseg : (segmentHeight : Int) = 113 := rfl
  rw [hseg]
  rw [Int.fdiv_eq_ediv _ (by norm_num : (0 : Int) ≤ 113)]
  omega

/-- C1: for every vertical span `[worldMinY, worldMaxY]` with
`worldMinY ≤ worldMaxY`, the slabs issued by
`replace_blocks_in_chunk_around_player` are non-empty, are exactly
`chunkSlabs`, start at `worldMinY`, end at `worldMaxY`, are individually
non-degenerate with block volume `height × 17 × 17 ≤ FILL_LIMIT_BLOCKS`,
are contiguous, are pairwise non-overlapping, and jointly cover every level
of the span. -/
theorem c1_slab_partition (worldMinY worldMaxY : Int) (h : worldMinY ≤ worldMaxY) :
    0 < (numSegments worldMinY worldMaxY).toNat
    ∧ chunkSlabs worldMinY worldMaxY
        = (List.range (numSegments worldMinY worldMaxY).toNat).map
            (fun i => (slabStart worldMinY i, slabEnd worldMinY worldMaxY i))
    ∧ slabStart worldMinY 0 = worldMinY
    ∧ slabEnd worldMinY worldMaxY ((numSegments worldMinY worldMaxY).toNat - 1) = worldMaxY
    ∧ (∀ i, i < (numSegments worldMinY worldMaxY).toNat →
        slabStart worldMinY i ≤ slabEnd worldMinY worldMaxY i
        ∧ (slabEnd worldMinY worldMaxY i - slabStart worldMinY i + 1)
            * ((hBlocks : Int) * (hBlocks : Int)) ≤ (FILL_LIMIT_BLOCKS : Int))
    ∧ (∀ i, i + 1 < (numSegments worldMinY worldMaxY).toNat →
        slabStart worldMinY (i + 1) = slabEnd worldMinY worldMaxY i + 1)
    ∧ (∀ i j, i < j → j < (numSegments worldMinY worldMaxY).toNat →
        slabEnd worldMinY worldMaxY i < slabStart worldMinY j)
    ∧ (∀ y : Int, worldMinY ≤ y → y ≤ worldMaxY →
        ∃ i, i < (numSegments worldMinY worldMaxY).toNat
          ∧ slabStart worldMinY i ≤ y ∧ y ≤ slabEnd worldMinY worldMaxY i) := by
  have hn := numSegments_toNat worldMinY worldMaxY h
  have hseg : (segmentHeight : Int) = 113 := rfl
  have hhb : (hBlocks : Int) = 17 := rfl
  have hfl : (FILL_LIMIT_BLOCKS : Int) = 32768 := rfl
  refine ⟨?_, rfl, ?_, ?_, ?_, ?_, ?_, ?_⟩
  · omega
  · simp [slabStart]
  · simp only [slabEnd, hseg]
    omega
  · intro i hi
    simp only [slabStart, slabEnd, hseg, hhb, hfl]
    constructor
    · omega
    · have hle : min (worldMinY + ((i : Int) + 1) * 113 - 1) worldMaxY
          - (worldMinY + (i : Int) * 113) + 1 ≤ 113 := by omega
      nlinarith [hle, min_le_left (worldMinY + ((i : Int) + 1) * 113 - 1) worldMaxY,
        min_le_right (worldMinY + ((i : Int) + 1) * 113 - 1) worldMaxY]
  · intro i hi
    simp only [slabStart, slabEnd, hseg]
    push_cast
    omega
  · intro i j hij hj
    simp only [slabStart, slabEnd, hseg]
    have : (i : Int) < (j : Int) := by exact_mod_cast hij
    omega
  · intro y hy1 hy2
    refine ⟨(y - worldMinY).toNat / 113, ?_, ?_, ?_⟩
    · omega
    · simp only [slabStart, hseg]
      omega
    · simp only [slabEnd, hseg]
      omega

/-- Witness for C1 at the default world span `[-64, 320]` (385 levels,
4 slabs of heights 113, 113, 113, 46). -/
theorem c1_slab_partition_witness :
    0 < (numSegments (-64) 320).toNat
    ∧ slabStart (-64) 0 = -64
    ∧ slabEnd (-64) 320 ((numSegments (-64) 320).toNat - 1) = 320
    ∧ slabStart (-64) 1 = slabEnd (-64) 320 0 + 1
    ∧ (slabEnd (-64) 320 0 - slabStart (-64) 0 + 1) * ((hBlocks : Int) * (hBlocks : Int))
        ≤ (FILL_LIMIT_BLOCKS : Int) := by
  have h := c1_slab_partition (-64) 320 (by decide)
  exact ⟨h.1, h.2.2.1, h.2.2.2.1, h.2.2.2.2.2.1 0 (by decide),
    (h.2.2.2.2.1 0 (by decide)).2⟩
